import Mathlib

/-!
Shallow embedding of the video-compilation module of the agelapse
repository (agelapse_desktop/src/video_compile.py) together with proofs
about the properties its specification claims.

Python-side entities are modelled as follows: machine floats that carry
exact decimal policy constants (durations, offsets) become rationals;
the filesystem listing of the image directory becomes a list of file
records (name plus resolved capture date and year); external encoder
processes become their exit codes; raised Python exceptions become an
error type inside Except.
-/

/-- Exceptions raised by the modelled Python code paths. -/
inductive PyError where
  | fileNotFoundError
  | valueError
  | calledProcessError
deriving DecidableEq, Repr

/-- A calendar timestamp as produced by Python datetime: year, month,
day, hour, minute, second. -/
structure PyDateTime where
  year : Nat
  month : Nat
  day : Nat
  hour : Nat
  minute : Nat
  second : Nat
deriving DecidableEq, Repr

/-- Numeric value of a decimal digit character. -/
def digitVal (c : Char) : Nat := c.toNat - 48

/-- Gregorian leap-year rule, as used by Python datetime. -/
def isLeapYear (y : Nat) : Bool :=
  (y % 4 == 0 && y % 100 != 0) || y % 400 == 0

/-- Number of days in a month, as validated by Python datetime. -/
def daysInMonth (y m : Nat) : Nat :=
  if m = 2 then (if isLeapYear y then 29 else 28)
  else if m = 4 ∨ m = 6 ∨ m = 9 ∨ m = 11 then 30
  else 31

/-- Models datetime.strptime(s, the colon-separated year month day
hour minute second format) on the canonical fixed-width form of the
EXIF DateTimeOriginal field: four year digits, then two digits for each
further field, with the separators of the format string, and the range
validation datetime performs. Returns none where strptime raises
ValueError. -/
def parseExifDateTime (s : String) : Option PyDateTime :=
  match s.toList with
  | [y1, y2, y3, y4, c1, m1, m2, c2, d1, d2, c3, h1, h2, c4, n1, n2, c5, s1, s2] =>
    if (y1.isDigit && y2.isDigit && y3.isDigit && y4.isDigit &&
        m1.isDigit && m2.isDigit && d1.isDigit && d2.isDigit &&
        h1.isDigit && h2.isDigit && n1.isDigit && n2.isDigit &&
        s1.isDigit && s2.isDigit &&
        c1 == ':' && c2 == ':' && c3 == ' ' && c4 == ':' && c5 == ':') then
      let y := ((digitVal y1 * 10 + digitVal y2) * 10 + digitVal y3) * 10 + digitVal y4
      let mo := digitVal m1 * 10 + digitVal m2
      let d := digitVal d1 * 10 + digitVal d2
      let h := digitVal h1 * 10 + digitVal h2
      let mi := digitVal n1 * 10 + digitVal n2
      let sec := digitVal s1 * 10 + digitVal s2
      if 1 ≤ mo && mo ≤ 12 && 1 ≤ d && d ≤ daysInMonth y mo &&
         h ≤ 23 && mi ≤ 59 && sec ≤ 59 then
        some ⟨y, mo, d, h, mi, sec⟩
      else none
    else none
  | _ => none

/-- Embedding of get_image_creation_date. The EXIF DateTimeOriginal tag
read from the file is dateTag (none when absent); mtime is the
datetime derived from the filesystem modification time. When the tag
is present the code calls datetime.strptime on it unguarded, so an
unparsable tag raises ValueError; only an absent tag falls back to
mtime. -/
def get_image_creation_date (dateTag : Option String) (mtime : PyDateTime) :
    Except PyError PyDateTime :=
  match dateTag with
  | some t =>
    match parseExifDateTime t with
    | some d => Except.ok d
    | none => Except.error PyError.valueError
  | none => Except.ok mtime

/-- The audio trim window computed in run_ffmpeg: a start offset (the
value passed to the encoder as the seek argument) and a window length
(the value passed as the duration argument). -/
structure AudioWindow where
  start : ℚ
  length : ℚ
deriving DecidableEq, Repr

/-- Embedding of the audio-synchronization arithmetic of run_ffmpeg:
video_length is the frame-rate-derived length before the hold; the code
adds the 5 second hold, then computes
start = floor(max(0, audio_duration - video_length)) - 3.3 with no
further clamping, and trims with length equal to the adjusted video
length. -/
def audio_trim_window (audio_duration video_length : ℚ) : AudioWindow :=
  let v := video_length + 5
  { start := ((Int.floor (max 0 (audio_duration - v)) : ℤ) : ℚ) - 33 / 10,
    length := v }

/-- One entry of the image directory listing, with the capture
timestamp already resolved for it: date is an abstract chronological
key (Python datetimes are totally ordered) and year the calendar year
of that timestamp. -/
structure FileInfo where
  name : String
  date : Nat
  year : Nat
deriving DecidableEq, Repr

/-- Suffix test on strings, the embedding of the Python endswith
method (and of the glob star-png pattern, which also matches exactly
the names with that suffix). -/
def strEndsWith (s suffix : String) : Bool :=
  suffix.toList.isSuffixOf s.toList

/-- The extension filter applied to the directory listing: both
glob with the png pattern and the os.listdir comprehension of
create_file_list keep exactly the names ending in the png suffix. -/
def pngFilter (listing : List FileInfo) : List FileInfo :=
  listing.filter (fun f => strEndsWith f.name (".png"))

/-- Lexicographic order on character lists by code point. -/
def lexLE : List Char → List Char → Bool
  | [], _ => true
  | _ :: _, [] => false
  | a :: as, b :: bs =>
    if a.toNat < b.toNat then true
    else if b.toNat < a.toNat then false
    else lexLE as bs

/-- Lexicographic string order by code point, the order the Python
sorted builtin applies to file paths. -/
def strLE (a b : String) : Bool := lexLE a.toList b.toList

/-- Embedding of get_image_files: the png files of the directory in
sorted order (the sorted builtin is a stable sort; it is embedded as
insertion sort, which is likewise stable, and a stable sort by a fixed
key is determined uniquely by its input), raising FileNotFoundError
when no file matches. -/
def get_image_files (listing : List FileInfo) : Except PyError (List FileInfo) :=
  let image_files := (pngFilter listing).insertionSort (fun a b => strLE a.name b.name)
  if image_files.isEmpty then Except.error PyError.fileNotFoundError
  else Except.ok image_files

/-- Embedding of get_video_length: number of matching images divided by
the framerate (propagating the FileNotFoundError of get_image_files). -/
def get_video_length (listing : List FileInfo) (framerate : ℚ) : Except PyError ℚ :=
  (get_image_files listing).map (fun fs => (fs.length : ℚ) / framerate)

/-- The sorted image sequence built inside create_file_list: the
os.listdir output filtered to png names and sorted by resolved
creation date. The Python list sort with a key is a stable sort; it is
embedded as insertion sort by the same key, which is likewise stable,
and a stable sort by a fixed key is determined uniquely by its input. -/
def timeline (listing : List FileInfo) : List FileInfo :=
  (pngFilter listing).insertionSort (fun a b => a.date ≤ b.date)

/-- One line of the concat manifest: either a file line carrying a
path, or a duration line carrying a number of seconds. -/
inductive ManifestLine where
  | file (path : String)
  | duration (seconds : ℚ)
deriving DecidableEq, Repr

/-- The manifest body written by the loop of create_file_list: for each
image, in order, one file line (the directory joined with the image
name) and one duration line; the loop compares the running index with
the last index, so every image except the last gets the per-frame
duration and the last gets the 5 second hold. -/
def manifestOf (image_dir : String) (time_per_frame : ℚ) :
    List FileInfo → List ManifestLine
  | [] => []
  | [f] => [ManifestLine.file (image_dir ++ "/" ++ f.name), ManifestLine.duration 5]
  | f :: g :: rest =>
      ManifestLine.file (image_dir ++ "/" ++ f.name) ::
        ManifestLine.duration time_per_frame ::
          manifestOf image_dir time_per_frame (g :: rest)

/-- Embedding of create_file_list: computes time_per_frame as the
reciprocal of the framerate, filters and stable-sorts the listing, and
writes the manifest lines. The Python body never raises (its try block
swallows every exception), and in particular performs no emptiness
check: an empty eligible set yields an empty manifest. -/
def create_file_list (image_dir : String) (listing : List FileInfo)
    (framerate : ℚ) : List ManifestLine :=
  manifestOf image_dir (1 / framerate) (timeline listing)

/-- Sum of the values of all duration lines of a manifest. -/
def sumDurations (lines : List ManifestLine) : ℚ :=
  (lines.map (fun l =>
    match l with
    | ManifestLine.duration q => q
    | ManifestLine.file _ => 0)).sum

/-- The three encoder stages of run_ffmpeg. -/
inductive Stage where
  | trim
  | assembly
  | mux
deriving DecidableEq, Repr

/-- Exit codes of the three external encoder invocations, the
environment a run of run_ffmpeg observes. -/
structure EncodeEnv where
  trimExit : Nat
  assemblyExit : Nat
  muxExit : Nat
deriving DecidableEq, Repr

/-- Existence of the three temporary artifacts of run_ffmpeg. -/
structure TempFiles where
  listFile : Bool
  tempAudio : Bool
  tempVideo : Bool
deriving DecidableEq, Repr

/-- Observable outcome of a run of run_ffmpeg: the control-flow result
(ok, or the exception it raises), the stages whose external process was
launched, and which temporary artifacts still exist when the run ends. -/
structure RunOutcome where
  result : Except PyError Unit
  stages : List Stage
  temps : TempFiles
deriving Repr

/-- Embedding of the control flow of run_ffmpeg. The manifest is
written first. The trim stage runs under subprocess.run with check
enabled, so a non-zero trim exit raises CalledProcessError there and
nothing further runs (and no cleanup runs, since the removal statements
sit at the end of the function body, not in a finally block). After a
successful trim, the assembly and the mux stages are launched with
Popen and only waited on: their exit codes are read by poll and wait
but never tested, so both always run and the function then removes the
list file and the temporary video if present, never the temporary
audio, and returns normally. -/
def run_ffmpeg (env : EncodeEnv) : RunOutcome :=
  let fs0 : TempFiles := { listFile := true, tempAudio := false, tempVideo := false }
  if env.trimExit ≠ 0 then
    { result := Except.error PyError.calledProcessError,
      stages := [Stage.trim],
      temps := fs0 }
  else
    let fs1 := { fs0 with tempAudio := true }
    let fs2 := { fs1 with tempVideo := env.assemblyExit == 0 }
    let fs3 := { fs2 with listFile := false, tempVideo := false }
    { result := Except.ok (),
      stages := [Stage.trim, Stage.assembly, Stage.mux],
      temps := fs3 }

/-- The audio window run_ffmpeg passes to the trim stage: it computes
the video length from the image directory (raising when the directory
has no matching image) and feeds it, together with the audio duration,
to the trim arithmetic. -/
def run_ffmpeg_audio_window (listing : List FileInfo) (framerate : ℚ)
    (audio_duration : ℚ) : Except PyError AudioWindow :=
  (get_video_length listing framerate).map
    (fun v => audio_trim_window audio_duration v)

/-- Filesystem facts compile_video observes. -/
structure CompileEnv where
  imageDirExists : Bool
  audioFileExists : Bool
  outputDirExists : Bool
deriving DecidableEq, Repr

/-- Observable outcome of compile_video: its return value, whether the
background thread was started, whether the output directory was
created, and the error its except clauses caught and logged, if any. -/
structure CompileResult where
  ret : String
  threadStarted : Bool
  madeOutputDir : Bool
  loggedError : Option PyError
deriving DecidableEq, Repr

/-- Embedding of compile_video: it checks that the image directory
exists, then that the audio file exists, raising FileNotFoundError
otherwise (caught by its own except clause, which logs it and falls
through to return the empty string, with the thread never started);
on the happy path it creates the output directory when absent, starts
the background thread running run_ffmpeg, and returns the intended
output path at once. -/
def compile_video (env : CompileEnv) (output_video_path : String) : CompileResult :=
  if env.imageDirExists = false then
    { ret := "", threadStarted := false, madeOutputDir := false,
      loggedError := some PyError.fileNotFoundError }
  else if env.audioFileExists = false then
    { ret := "", threadStarted := false, madeOutputDir := false,
      loggedError := some PyError.fileNotFoundError }
  else
    { ret := output_video_path, threadStarted := true,
      madeOutputDir := !env.outputDirExists, loggedError := none }

/-- A year segment of the overlay program: the year drawn, the frame
index at which its drawtext enable condition begins, and its end frame
index — some e for a closed segment, whose enable condition is the
inclusive between(n, start, e), or none for the final open-ended
segment, whose enable condition is n greater or equal start. -/
structure YearSegment where
  year : Nat
  startFrame : Nat
  endFrame : Option Nat
deriving DecidableEq, Repr

/-- Frame coverage of a segment, following the semantics of the ffmpeg
enable expressions emitted for it: between is inclusive at both ends. -/
def covers (seg : YearSegment) (n : Nat) : Bool :=
  match seg.endFrame with
  | some e => decide (seg.startFrame ≤ n) && decide (n ≤ e)
  | none => decide (seg.startFrame ≤ n)

/-- Embedding of the segment loop of generate_year_overlay_filter,
statement by statement: the loop walks the sorted years with index i,
keeping the current year (none before the first iteration), the start
frame of the current run, and the accumulated closed segments; when the
year changes it closes the previous segment with end index i (when one
is open) and starts a new run at i; after the loop the pending run is
appended as the open-ended final segment. -/
def segLoop : List Nat → Option Nat → Nat → Nat → List YearSegment → List YearSegment
  | [], current, start, _, acc =>
      match current with
      | none => acc
      | some c => acc ++ [⟨c, start, none⟩]
  | y :: ys, current, start, i, acc =>
      if current = some y then
        segLoop ys current start (i + 1) acc
      else
        match current with
        | none => segLoop ys (some y) i (i + 1) acc
        | some c => segLoop ys (some y) i (i + 1) (acc ++ [⟨c, start, some i⟩])

/-- The segments generate_year_overlay_filter derives from a list of
capture years: the list is sorted in place and fed to the loop. -/
def year_segments (years0 : List Nat) : List YearSegment :=
  segLoop (years0.insertionSort (fun a b => a ≤ b)) none 0 0 []

/-- Embedding of generate_year_overlay_filter, up to the final
rendering of each segment as a drawtext directive: it lists the image
files (raising when none matches), takes their capture years, sorts
them, and runs the segment loop. -/
def generate_year_overlay_filter (listing : List FileInfo) :
    Except PyError (List YearSegment) :=
  (get_image_files listing).map
    (fun image_files => year_segments (image_files.map (fun f => f.year)))

/-- Recursive form of the segment loop from the point where a run is
open: c is the current year, start the first frame of its run, i the
index of the next year to examine. Equal years extend the run; a
different year closes the current segment at i and opens a new run
there; exhausting the years emits the open-ended final segment. -/
def segsAux (c : Nat) (start : Nat) (i : Nat) : List Nat → List YearSegment
  | [] => [⟨c, start, none⟩]
  | y :: ys =>
      if c = y then segsAux c start (i + 1) ys
      else ⟨c, start, some i⟩ :: segsAux y i (i + 1) ys

/-! ## Theorems -/

/-- Claim C1, counterexample: with audio duration 20 and
frame-rate-derived video length 20 (total video duration 25, so the
audio is shorter than the video), the computed trim start offset is
minus 3.3 seconds, not 0: the code subtracts the lead-in after the
clamp, so the result is negative. -/
theorem c1_counterexample :
    (audio_trim_window 20 20).start = -(33 / 10) ∧
    ¬ (audio_trim_window 20 20).start = 0 := by
  have h : (audio_trim_window 20 20).start = -(33 / 10) := by
    show ((Int.floor (max 0 ((20 : ℚ) - (20 + 5))) : ℤ) : ℚ) - 33 / 10 = -(33 / 10)
    have hm : max 0 ((20 : ℚ) - (20 + 5)) = 0 := by norm_num
    rw [hm, Int.floor_zero]
    norm_num
  exact ⟨h, by rw [h]; norm_num⟩

/-- Claim C1 (amended): for every audio duration A and frame-rate
video length V0 (total video duration V = V0 + 5 with the hold), the
trim start offset is floor(max(0, A - V)) minus the 3.3 second lead-in
with no further clamping, and the window length equals V; in
particular for V = 25, A = 40 the offset is 11.7 and the length 25,
and whenever A < V the computed offset is -3.3, not 0. -/
theorem c1_amended (A V0 : ℚ) :
    (audio_trim_window A V0).length = V0 + 5 ∧
    (audio_trim_window A V0).start =
      ((Int.floor (max 0 (A - (V0 + 5))) : ℤ) : ℚ) - 33 / 10 ∧
    (A < V0 + 5 → (audio_trim_window A V0).start = -(33 / 10)) ∧
    (audio_trim_window 40 20).start = 117 / 10 ∧
    (audio_trim_window 40 20).length = 25 := by
  refine ⟨rfl, rfl, ?_, ?_, by show (20 : ℚ) + 5 = 25; norm_num⟩
  · intro h
    show ((Int.floor (max 0 (A - (V0 + 5))) : ℤ) : ℚ) - 33 / 10 = -(33 / 10)
    have hm : max 0 (A - (V0 + 5)) = 0 := by
      have : A - (V0 + 5) ≤ 0 := by linarith
      exact max_eq_left this
    rw [hm, Int.floor_zero]
    norm_num
  · show ((Int.floor (max 0 ((40 : ℚ) - (20 + 5))) : ℤ) : ℚ) - 33 / 10 = 117 / 10
    have hm : max 0 ((40 : ℚ) - (20 + 5)) = 15 := by norm_num
    have hf : Int.floor ((15 : ℚ)) = 15 := by
      norm_num
    rw [hm, hf]
    norm_num

/-- Claim C1, witness: the amended theorem applied at audio duration
20 and video length 20 discharges its audio-shorter-than-video case. -/
theorem c1_witness :
    (20 : ℚ) < 20 + 5 ∧ (audio_trim_window 20 20).start = -(33 / 10) :=
  ⟨by norm_num, (c1_amended 20 20).2.2.1 (by norm_num)⟩

/-- Claim C3, counterexample: in a run where the trim stage exits 0,
the assembly stage exits 1 (non-zero) and the mux stage exits 0, the
mux stage still runs and the run completes without surfacing any
failure, so a non-zero stage status does not abort the remaining
stages. -/
theorem c3_counterexample :
    (run_ffmpeg ⟨0, 1, 0⟩).stages = [Stage.trim, Stage.assembly, Stage.mux] ∧
    Stage.mux ∈ (run_ffmpeg ⟨0, 1, 0⟩).stages ∧
    (run_ffmpeg ⟨0, 1, 0⟩).result = Except.ok () :=
  ⟨rfl, by decide, rfl⟩

/-- Claim C3 (amended): only the trim stage is checked: a non-zero
trim status raises CalledProcessError and the remaining stages do not
run; after a zero trim status the assembly and mux stages both always
run and the run ends without surfacing a failure, whatever their exit
statuses are. -/
theorem c3_amended (env : EncodeEnv) :
    (env.trimExit ≠ 0 →
      (run_ffmpeg env).result = Except.error PyError.calledProcessError ∧
      (run_ffmpeg env).stages = [Stage.trim]) ∧
    (env.trimExit = 0 →
      (run_ffmpeg env).stages = [Stage.trim, Stage.assembly, Stage.mux] ∧
      (run_ffmpeg env).result = Except.ok ()) := by
  by_cases h : env.trimExit = 0 <;> simp [run_ffmpeg, h]

/-- Claim C3, witness: the amended theorem applied to the run with
trim exit 1, where the trim failure aborts the remaining stages. -/
theorem c3_witness :
    (1 : Nat) ≠ 0 ∧
    (run_ffmpeg ⟨1, 0, 0⟩).result = Except.error PyError.calledProcessError ∧
    (run_ffmpeg ⟨1, 0, 0⟩).stages = [Stage.trim] :=
  ⟨by decide, (c3_amended ⟨1, 0, 0⟩).1 (by decide)⟩

/-- Claim C4, counterexample: in a fully successful run (all three
stages exit 0) the temporary audio file still exists when the run
ends: the cleanup block removes only the list file and the temporary
video, never the temporary audio. -/
theorem c4_counterexample :
    (run_ffmpeg ⟨0, 0, 0⟩).result = Except.ok () ∧
    (run_ffmpeg ⟨0, 0, 0⟩).temps.tempAudio = true ∧
    (run_ffmpeg ⟨1, 0, 0⟩).temps.listFile = true :=
  ⟨rfl, rfl, rfl⟩

/-- Claim C4 (amended): when the trim stage succeeds the run removes
the temporary manifest and the temporary video before it ends, but the
temporary audio file is never removed; when the trim stage fails, the
raised exception skips the cleanup entirely and the temporary manifest
is not removed either. -/
theorem c4_amended (env : EncodeEnv) :
    (env.trimExit = 0 →
      (run_ffmpeg env).temps.listFile = false ∧
      (run_ffmpeg env).temps.tempVideo = false ∧
      (run_ffmpeg env).temps.tempAudio = true) ∧
    (env.trimExit ≠ 0 → (run_ffmpeg env).temps.listFile = true) := by
  by_cases h : env.trimExit = 0 <;> simp [run_ffmpeg, h]

/-- Claim C4, witness: the amended theorem applied to the fully
successful run. -/
theorem c4_witness :
    (0 : Nat) = 0 ∧
    (run_ffmpeg ⟨0, 0, 0⟩).temps.listFile = false ∧
    (run_ffmpeg ⟨0, 0, 0⟩).temps.tempVideo = false ∧
    (run_ffmpeg ⟨0, 0, 0⟩).temps.tempAudio = true :=
  ⟨rfl, (c4_amended ⟨0, 0, 0⟩).1 rfl⟩

/-- Claim C6, counterexample: a directory listing holding one jpg file
matches zero png images, yet create_file_list succeeds and produces an
empty manifest (and an empty sorted timeline) instead of failing:
nothing in manifest construction enforces non-emptiness. -/
theorem c6_counterexample :
    create_file_list ("d") [⟨"a.jpg", 0, 2020⟩] 30 = [] ∧
    timeline [⟨"a.jpg", 0, 2020⟩] = [] :=
  ⟨rfl, rfl⟩

/-- Claim C6 (amended): for a listing with zero matching png images,
manifest construction does not fail: create_file_list returns an empty
manifest. The emptiness error is raised downstream instead, by
get_image_files (a FileNotFoundError), which run_ffmpeg first reaches
through get_video_length after the manifest has already been built. -/
theorem c6_amended (image_dir : String) (listing : List FileInfo) (r : ℚ)
    (h : pngFilter listing = []) :
    create_file_list image_dir listing r = [] ∧
    get_image_files listing = Except.error PyError.fileNotFoundError ∧
    get_video_length listing r = Except.error PyError.fileNotFoundError := by
  have ht : timeline listing = [] := by
    simp [timeline, h]
  have hg : get_image_files listing = Except.error PyError.fileNotFoundError := by
    simp [get_image_files, h]
  refine ⟨?_, hg, ?_⟩
  · simp [create_file_list, ht, manifestOf]
  · simp [get_video_length, hg, Except.map]

/-- Claim C6, witness: the amended theorem applied to the
one-jpg-file listing. -/
theorem c6_witness :
    pngFilter [⟨"a.jpg", 0, 2020⟩] = [] ∧
    (create_file_list ("d") [⟨"a.jpg", 0, 2020⟩] 30 = [] ∧
      get_image_files [⟨"a.jpg", 0, 2020⟩] = Except.error PyError.fileNotFoundError ∧
      get_video_length [⟨"a.jpg", 0, 2020⟩] 30 = Except.error PyError.fileNotFoundError) :=
  ⟨rfl, c6_amended ("d") [⟨"a.jpg", 0, 2020⟩] 30 rfl⟩

/-- Claim C7, counterexample: a file whose EXIF DateTimeOriginal tag
is present but unparsable makes the Date Resolver raise ValueError
instead of falling back to the modification time: the strptime call is
not guarded. -/
theorem c7_counterexample :
    get_image_creation_date (some ("not a date")) ⟨1970, 1, 1, 0, 0, 0⟩ =
      Except.error PyError.valueError ∧
    ¬ get_image_creation_date (some ("not a date")) ⟨1970, 1, 1, 0, 0, 0⟩ =
        Except.ok ⟨1970, 1, 1, 0, 0, 0⟩ :=
  ⟨rfl, fun hcon => by
    rw [show get_image_creation_date (some ("not a date")) ⟨1970, 1, 1, 0, 0, 0⟩ =
        Except.error PyError.valueError from rfl] at hcon
    exact Except.noConfusion hcon⟩

/-- Claim C7 (amended): the Date Resolver returns the embedded capture
timestamp when a well-formed field is present, and falls back to the
last-modified time only when the field is absent; when the field is
present but unparsable it raises ValueError, so such a file does fail
the run. -/
theorem c7_amended (mtime : PyDateTime) :
    get_image_creation_date none mtime = Except.ok mtime ∧
    (∀ s d, parseExifDateTime s = some d →
      get_image_creation_date (some s) mtime = Except.ok d) ∧
    (∀ s, parseExifDateTime s = none →
      get_image_creation_date (some s) mtime = Except.error PyError.valueError) := by
  refine ⟨rfl, ?_, ?_⟩
  · intro s d h
    simp [get_image_creation_date, h]
  · intro s h
    simp [get_image_creation_date, h]

/-- Claim C7, witness: the amended theorem applied at a concrete
well-formed tag and a concrete mtime. -/
theorem c7_witness :
    parseExifDateTime ("2020:06:01 12:00:00") = some ⟨2020, 6, 1, 12, 0, 0⟩ ∧
    get_image_creation_date (some ("2020:06:01 12:00:00")) ⟨1970, 1, 1, 0, 0, 0⟩ =
      Except.ok ⟨2020, 6, 1, 12, 0, 0⟩ :=
  ⟨rfl, (c7_amended ⟨1970, 1, 1, 0, 0, 0⟩).2.1 ("2020:06:01 12:00:00")
    ⟨2020, 6, 1, 12, 0, 0⟩ rfl⟩

/-- Claim C9 (confirmed): when the image directory or the audio file
is missing, compile_video fails synchronously before any background
work: no thread is started, the output directory is not created, a
FileNotFoundError is recorded and the empty string is returned; on the
happy path it creates the output directory exactly when absent, starts
the background thread, and returns the intended output path. -/
theorem c9_thm (env : CompileEnv) (path : String) :
    ((env.imageDirExists = false ∨ env.audioFileExists = false) →
      compile_video env path =
        { ret := "", threadStarted := false, madeOutputDir := false,
          loggedError := some PyError.fileNotFoundError }) ∧
    (env.imageDirExists = true → env.audioFileExists = true →
      (compile_video env path).ret = path ∧
      (compile_video env path).threadStarted = true ∧
      (compile_video env path).madeOutputDir = !env.outputDirExists ∧
      (compile_video env path).loggedError = none) := by
  obtain ⟨i, a, o⟩ := env
  cases i <;> cases a <;> simp [compile_video]

/-- Claim C9, witness: the theorem applied at a missing image
directory, where the thread is not started, and at an
all-present environment with an absent output directory, where it is. -/
theorem c9_witness :
    compile_video ⟨false, true, true⟩ ("out.mp4") =
      { ret := "", threadStarted := false, madeOutputDir := false,
        loggedError := some PyError.fileNotFoundError } ∧
    (compile_video ⟨true, true, false⟩ ("out.mp4")).threadStarted = true :=
  ⟨(c9_thm ⟨false, true, true⟩ ("out.mp4")).1 (Or.inl rfl),
   ((c9_thm ⟨true, true, false⟩ ("out.mp4")).2 rfl rfl).2.1⟩

/-- Sorting inside create_file_list preserves the number of eligible
images. -/
lemma timeline_length (listing : List FileInfo) :
    (timeline listing).length = (pngFilter listing).length := by
  unfold timeline
  exact (List.perm_insertionSort (fun a b => a.date ≤ b.date) (pngFilter listing)).length_eq

/-- The timeline is sorted non-decreasing by resolved capture date. -/
lemma timeline_sorted (listing : List FileInfo) :
    (timeline listing).Pairwise (fun a b => a.date ≤ b.date) := by
  haveI : IsTotal FileInfo (fun a b => a.date ≤ b.date) :=
    ⟨fun a b => Nat.le_total a.date b.date⟩
  haveI : IsTrans FileInfo (fun a b => a.date ≤ b.date) :=
    ⟨fun a b c hab hbc => Nat.le_trans hab hbc⟩
  unfold timeline
  exact List.sorted_insertionSort (fun a b => a.date ≤ b.date) (pngFilter listing)

/-- Stability of the timeline sort: the images sharing any one capture
date appear in the timeline exactly as they appear in the filtered
directory listing. -/
lemma timeline_stable (listing : List FileInfo) (d : Nat) :
    (timeline listing).filter (fun f => decide (f.date = d)) =
      (pngFilter listing).filter (fun f => decide (f.date = d)) := by
  set p : FileInfo → Bool := fun f => decide (f.date = d) with hp
  set s := (pngFilter listing).filter p with hs
  have hall : ∀ x ∈ s, x.date = d := by
    intro x hx
    have := List.of_mem_filter hx
    simpa [hp] using this
  have hpair : s.Pairwise (fun a b => a.date ≤ b.date) := by
    apply List.pairwise_of_forall_mem_list
    intro a ha b hb
    rw [hall a ha, hall b hb]
  have hsub : List.Sublist s (pngFilter listing) := List.filter_sublist _
  have h2 : List.Sublist s (timeline listing) := by
    unfold timeline
    exact List.sublist_insertionSort hpair hsub
  have h3 : s.filter p = s :=
    List.filter_eq_self.mpr (fun x hx => by simp [hp, hall x hx])
  have h4 : List.Sublist s ((timeline listing).filter p) := by
    rw [← h3]
    exact h2.filter p
  have h5 : ((timeline listing).filter p).length = s.length := by
    have hperm := (List.perm_insertionSort (fun a b => a.date ≤ b.date) (pngFilter listing)).filter p
    unfold timeline
    exact hperm.length_eq
  exact (h4.eq_of_length h5.symm).symm

/-- Claim C5 (confirmed): for every non-empty eligible image set, the
timeline built by create_file_list has as many entries as there are
eligible png images, is sorted non-decreasing by resolved capture
timestamp, and images sharing a timestamp keep their original listing
order (the sort is stable). -/
theorem c5_thm (listing : List FileInfo) (h : pngFilter listing ≠ []) :
    (timeline listing).length = (pngFilter listing).length ∧
    (timeline listing).Pairwise (fun a b => a.date ≤ b.date) ∧
    ∀ d : Nat,
      (timeline listing).filter (fun f => decide (f.date = d)) =
        (pngFilter listing).filter (fun f => decide (f.date = d)) :=
  ⟨timeline_length listing, timeline_sorted listing, timeline_stable listing⟩

/-- Claim C5, witness: the theorem applied to a listing of three png
files, two of them sharing the capture date 3 in listing order c.png
then a.png, which the stable sort preserves. -/
theorem c5_witness :
    pngFilter [⟨"b.png", 5, 2020⟩, ⟨"c.png", 3, 2021⟩, ⟨"a.png", 3, 2022⟩] ≠ [] ∧
    (timeline [⟨"b.png", 5, 2020⟩, ⟨"c.png", 3, 2021⟩, ⟨"a.png", 3, 2022⟩]).filter
        (fun f => decide (f.date = 3)) =
      (pngFilter [⟨"b.png", 5, 2020⟩, ⟨"c.png", 3, 2021⟩, ⟨"a.png", 3, 2022⟩]).filter
        (fun f => decide (f.date = 3)) :=
  ⟨by decide,
   (c5_thm [⟨"b.png", 5, 2020⟩, ⟨"c.png", 3, 2021⟩, ⟨"a.png", 3, 2022⟩] (by decide)).2.2 3⟩

/-- Shape of the manifest body: one file line and one duration line per
image in order; every image but the last carries the per-frame
duration, the last carries the 5 second hold. -/
lemma manifestOf_eq_append (dir : String) (tpf : ℚ) :
    ∀ (l : List FileInfo) (h : l ≠ []),
      manifestOf dir tpf l =
        (l.dropLast.map (fun f =>
          [ManifestLine.file (dir ++ "/" ++ f.name),
           ManifestLine.duration tpf])).flatten ++
        [ManifestLine.file (dir ++ "/" ++ (l.getLast h).name),
         ManifestLine.duration 5]
  | [], h => absurd rfl h
  | [f], _ => by simp [manifestOf]
  | f :: g :: rest, _ => by
    have ih := manifestOf_eq_append dir tpf (g :: rest) (by simp)
    simp only [manifestOf, ih, List.dropLast_cons₂, List.map_cons, List.flatten_cons,
      List.getLast_cons (List.cons_ne_nil g rest), List.cons_append, List.nil_append]

/-- The duration lines of the manifest body sum to the length of the
image list minus one, times the per-frame duration, plus the hold. -/
lemma sumDurations_manifestOf (dir : String) (tpf : ℚ) :
    ∀ (l : List FileInfo), l ≠ [] →
      sumDurations (manifestOf dir tpf l) = ((l.length : ℚ) - 1) * tpf + 5
  | [], h => absurd rfl h
  | [f], _ => by
    simp [manifestOf, sumDurations]
  | f :: g :: rest, _ => by
    have ih := sumDurations_manifestOf dir tpf (g :: rest) (by simp)
    simp only [manifestOf, sumDurations, List.map_cons, List.sum_cons, List.length_cons] at ih ⊢
    rw [ih]
    push_cast
    ring

/-- Claim C8 (confirmed): for every non-empty timeline of n frames at
frame rate r, the manifest consists, per frame in timeline order, of
one file line followed by one duration line; every frame except the
last carries duration 1 / r and the last carries the 5 second hold,
and the duration lines sum to (n - 1) * (1 / r) + 5. -/
theorem c8_thm (image_dir : String) (listing : List FileInfo) (r : ℚ)
    (h : timeline listing ≠ []) :
    create_file_list image_dir listing r =
      ((timeline listing).dropLast.map (fun f =>
        [ManifestLine.file (image_dir ++ "/" ++ f.name),
         ManifestLine.duration (1 / r)])).flatten ++
      [ManifestLine.file (image_dir ++ "/" ++ ((timeline listing).getLast h).name),
       ManifestLine.duration 5] ∧
    sumDurations (create_file_list image_dir listing r) =
      (((timeline listing).length : ℚ) - 1) * (1 / r) + 5 := by
  unfold create_file_list
  exact ⟨manifestOf_eq_append image_dir (1 / r) (timeline listing) h,
         sumDurations_manifestOf image_dir (1 / r) (timeline listing) h⟩

/-- Claim C8, witness: the theorem applied to a concrete two-image
listing at frame rate 2. -/
theorem c8_witness :
    timeline [⟨"b.png", 5, 2020⟩, ⟨"a.png", 3, 2020⟩] ≠ [] ∧
    sumDurations (create_file_list ("d") [⟨"b.png", 5, 2020⟩, ⟨"a.png", 3, 2020⟩] 2) =
      (((timeline [⟨"b.png", 5, 2020⟩, ⟨"a.png", 3, 2020⟩]).length : ℚ) - 1) * (1 / 2) + 5 :=
  ⟨by decide,
   (c8_thm ("d") [⟨"b.png", 5, 2020⟩, ⟨"a.png", 3, 2020⟩] 2 (by decide)).2⟩

/-- On a listing with at least one eligible image, get_video_length
returns the image count divided by the frame rate. -/
lemma get_video_length_ok (listing : List FileInfo) (r : ℚ) (h : pngFilter listing ≠ []) :
    get_video_length listing r = Except.ok (((pngFilter listing).length : ℚ) / r) := by
  unfold get_video_length get_image_files
  have hlen : ((pngFilter listing).insertionSort (fun a b => strLE a.name b.name)).length
      = (pngFilter listing).length :=
    (List.perm_insertionSort (fun a b => strLE a.name b.name) (pngFilter listing)).length_eq
  have hne : ((pngFilter listing).insertionSort (fun a b => strLE a.name b.name)).isEmpty
      = false := by
    rw [List.isEmpty_eq_false]
    intro hnil
    rw [hnil] at hlen
    exact h (List.eq_nil_of_length_eq_zero hlen.symm)
  simp [hne, Except.map, hlen]

/-- Claim C10 (confirmed): for every run over a non-empty eligible
image set of n images at frame rate r, the audio window length passed
to the trim stage is n / r + 5, the manifest duration lines sum to
(n - 1) * (1 / r) + 5, and the former exceeds the latter by exactly
1 / r. -/
theorem c10_thm (image_dir : String) (listing : List FileInfo) (r A : ℚ)
    (hr : 0 < r) (h : pngFilter listing ≠ []) :
    ∃ w : AudioWindow,
      run_ffmpeg_audio_window listing r A = Except.ok w ∧
      w.length = ((pngFilter listing).length : ℚ) / r + 5 ∧
      sumDurations (create_file_list image_dir listing r) =
        (((pngFilter listing).length : ℚ) - 1) * (1 / r) + 5 ∧
      w.length - sumDurations (create_file_list image_dir listing r) = 1 / r := by
  have hgv := get_video_length_ok listing r h
  have htne : timeline listing ≠ [] := by
    intro hnil
    have hl := timeline_length listing
    rw [hnil] at hl
    exact h (List.eq_nil_of_length_eq_zero hl.symm)
  have hsum := sumDurations_manifestOf image_dir (1 / r) (timeline listing) htne
  have hsum2 : sumDurations (create_file_list image_dir listing r) =
      (((pngFilter listing).length : ℚ) - 1) * (1 / r) + 5 := by
    unfold create_file_list
    rw [hsum, timeline_length]
  refine ⟨audio_trim_window A (((pngFilter listing).length : ℚ) / r), ?_, rfl, hsum2, ?_⟩
  · unfold run_ffmpeg_audio_window
    rw [hgv]
    rfl
  · rw [hsum2]
    show ((pngFilter listing).length : ℚ) / r + 5 - _ = _
    have hr0 : r ≠ 0 := ne_of_gt hr
    field_simp

/-- Claim C10, witness: the theorem applied to a concrete two-image
listing at frame rate 2 with a 60 second audio track. -/
theorem c10_witness :
    (0 : ℚ) < 2 ∧ pngFilter [⟨"b.png", 5, 2020⟩, ⟨"a.png", 3, 2021⟩] ≠ [] ∧
    ∃ w : AudioWindow,
      run_ffmpeg_audio_window [⟨"b.png", 5, 2020⟩, ⟨"a.png", 3, 2021⟩] 2 60 = Except.ok w ∧
      w.length = ((pngFilter [⟨"b.png", 5, 2020⟩, ⟨"a.png", 3, 2021⟩]).length : ℚ) / 2 + 5 ∧
      sumDurations (create_file_list ("d") [⟨"b.png", 5, 2020⟩, ⟨"a.png", 3, 2021⟩] 2) =
        (((pngFilter [⟨"b.png", 5, 2020⟩, ⟨"a.png", 3, 2021⟩]).length : ℚ) - 1) * (1 / 2) + 5 ∧
      w.length - sumDurations (create_file_list ("d") [⟨"b.png", 5, 2020⟩, ⟨"a.png", 3, 2021⟩] 2) =
        1 / 2 :=
  ⟨by norm_num, by decide,
   c10_thm ("d") [⟨"b.png", 5, 2020⟩, ⟨"a.png", 3, 2021⟩] 2 60 (by norm_num) (by decide)⟩

/-- The segment list headed by a run of year c starting at frame
start begins with a segment carrying exactly that year and start. -/
lemma segsAux_head : ∀ (ys : List Nat) (c start i : Nat),
    ∃ e tl, segsAux c start i ys = YearSegment.mk c start e :: tl
  | [], c, start, i => ⟨none, [], rfl⟩
  | y :: ys, c, start, i => by
    by_cases hcy : c = y
    · obtain ⟨e, tl, heq⟩ := segsAux_head ys c start (i + 1)
      exact ⟨e, tl, by simp only [segsAux, if_pos hcy]; exact heq⟩
    · exact ⟨some i, segsAux y i (i + 1) ys, by simp only [segsAux, if_neg hcy]⟩

/-- The accumulator loop equals the recursive segment builder once a
run is open: it appends the segments it builds to the accumulator. -/
lemma segLoop_some : ∀ (ys : List Nat) (c start i : Nat) (acc : List YearSegment),
    segLoop ys (some c) start i acc = acc ++ segsAux c start i ys
  | [], c, start, i, acc => rfl
  | y :: ys, c, start, i, acc => by
    by_cases hcy : c = y
    · subst hcy
      simp only [segLoop, if_pos rfl, segsAux, if_pos rfl]
      exact segLoop_some ys c start (i + 1) acc
    · have hne : ¬ (some c = some y) := by simpa using hcy
      simp only [segLoop, if_neg hne, segsAux, if_neg hcy]
      rw [segLoop_some ys y i (i + 1) (acc ++ [YearSegment.mk c start (some i)])]
      simp [List.append_assoc]

/-- On a non-empty sorted year list, the overlay loop produces the
segments of the recursive builder seeded with the first year. -/
lemma year_segments_eq (years0 : List Nat) (y : Nat) (ys : List Nat)
    (h : years0.insertionSort (fun a b => a ≤ b) = y :: ys) :
    year_segments years0 = segsAux y 0 1 ys := by
  unfold year_segments
  rw [h]
  simp only [segLoop]
  rw [if_neg (by simp)]
  exact (segLoop_some ys y 0 1 []).trans (by simp)

/-- Adjacent segments are contiguous and strictly ascending: each
closed segment ends exactly at the next segment's start frame, and
both start frames and years strictly increase along the list, given a
sorted year input and a non-empty current run. -/
lemma segsAux_chain : ∀ (ys : List Nat) (c start i : Nat), start < i →
    List.Chain' (fun a b => a ≤ b) (c :: ys) →
    List.Chain' (fun s t => s.endFrame = some t.startFrame ∧
      s.startFrame < t.startFrame ∧ s.year < t.year) (segsAux c start i ys)
  | [], c, start, i, _, _ => List.chain'_singleton _
  | y :: ys, c, start, i, hsi, hch => by
    obtain ⟨hcy_le, htail⟩ := List.chain'_cons.mp hch
    by_cases hcy : c = y
    · simp only [segsAux, if_pos hcy]
      subst hcy
      exact segsAux_chain ys c start (i + 1) (Nat.lt_succ_of_lt hsi) htail
    · simp only [segsAux, if_neg hcy]
      obtain ⟨e, tl, heq⟩ := segsAux_head ys y i (i + 1)
      have hrec := segsAux_chain ys y i (i + 1) (Nat.lt_succ_self i) htail
      rw [heq] at hrec ⊢
      exact List.chain'_cons.mpr
        ⟨⟨rfl, hsi, Nat.lt_of_le_of_ne hcy_le hcy⟩, hrec⟩

/-- Every frame index from the start of the current run onwards is
covered by at least one emitted segment (closed segments cover their
inclusive between range, the final segment everything from its start). -/
lemma segsAux_covers (k : Nat) : ∀ (ys : List Nat) (c start i : Nat), start ≤ k →
    ∃ seg ∈ segsAux c start i ys, covers seg k = true
  | [], c, start, i, hs =>
    ⟨⟨c, start, none⟩, List.mem_cons_self _ _, by simpa [covers] using hs⟩
  | y :: ys, c, start, i, hs => by
    by_cases hcy : c = y
    · simp only [segsAux, if_pos hcy]
      exact segsAux_covers k ys c start (i + 1) hs
    · simp only [segsAux, if_neg hcy]
      by_cases hk : k ≤ i
      · exact ⟨⟨c, start, some i⟩, List.mem_cons_self _ _,
          by simp [covers]; exact ⟨hs, hk⟩⟩
      · obtain ⟨seg, hmem, hcov⟩ :=
          segsAux_covers k ys y i (i + 1) (Nat.le_of_lt (Nat.lt_of_not_le hk))
        exact ⟨seg, List.mem_cons_of_mem _ hmem, hcov⟩

/-- The emitted segments split as a list of closed segments followed by
exactly one final open-ended segment. -/
lemma segsAux_split : ∀ (ys : List Nat) (c start i : Nat),
    ∃ pre y0 s0, segsAux c start i ys = pre ++ [YearSegment.mk y0 s0 none] ∧
      ∀ seg ∈ pre, seg.endFrame ≠ none
  | [], c, start, i => ⟨[], c, start, rfl, by simp⟩
  | y :: ys, c, start, i => by
    by_cases hcy : c = y
    · obtain ⟨pre, y0, s0, heq, hall⟩ := segsAux_split ys c start (i + 1)
      exact ⟨pre, y0, s0, by simp only [segsAux, if_pos hcy]; exact heq, hall⟩
    · obtain ⟨pre, y0, s0, heq, hall⟩ := segsAux_split ys y i (i + 1)
      refine ⟨YearSegment.mk c start (some i) :: pre, y0, s0, ?_, ?_⟩
      · simp only [segsAux, if_neg hcy, heq, List.cons_append]
      · intro seg hseg
        rcases List.mem_cons.mp hseg with h1 | h2
        · subst h1; simp
        · exact hall seg h2

/-- A constant year list collapses to a single open-ended segment. -/
lemma segsAux_const : ∀ (ys : List Nat) (c start i : Nat), (∀ y ∈ ys, y = c) →
    segsAux c start i ys = [YearSegment.mk c start none]
  | [], c, start, i, _ => rfl
  | y :: ys, c, start, i, hall => by
    have hy : c = y := (hall y (List.mem_cons_self y ys)).symm
    simp only [segsAux, if_pos hy]
    exact segsAux_const ys c start (i + 1) (fun z hz => hall z (List.mem_cons_of_mem y hz))

/-- On a listing with at least one eligible image, get_image_files
returns the name-sorted eligible files. -/
lemma get_image_files_ok (listing : List FileInfo) (h : pngFilter listing ≠ []) :
    get_image_files listing =
      Except.ok ((pngFilter listing).insertionSort (fun a b => strLE a.name b.name)) := by
  unfold get_image_files
  have hlen : ((pngFilter listing).insertionSort (fun a b => strLE a.name b.name)).length
      = (pngFilter listing).length :=
    (List.perm_insertionSort (fun a b => strLE a.name b.name) (pngFilter listing)).length_eq
  have hne : ((pngFilter listing).insertionSort (fun a b => strLE a.name b.name)).isEmpty
      = false := by
    rw [List.isEmpty_eq_false]
    intro hnil
    rw [hnil] at hlen
    exact h (List.eq_nil_of_length_eq_zero hlen.symm)
  simp [hne]

/-- Claim C2, counterexample: for a two-frame timeline with years 2020
and 2021 the generator emits the closed segment between(n, 0, 1) and
the open segment gte(n, 1); both enable conditions are inclusive at
frame index 1, which lies in the frame range, so that index is covered
by two segments, not exactly once: the segments overlap at every year
boundary. -/
theorem c2_counterexample :
    generate_year_overlay_filter [⟨"a.png", 0, 2020⟩, ⟨"b.png", 1, 2021⟩] =
      Except.ok [⟨2020, 0, some 1⟩, ⟨2021, 1, none⟩] ∧
    covers ⟨2020, 0, some 1⟩ 1 = true ∧
    covers ⟨2021, 1, none⟩ 1 = true ∧
    List.countP (fun seg => covers seg 1) [⟨2020, 0, some 1⟩, ⟨2021, 1, none⟩] = 2 :=
  ⟨rfl, rfl, rfl, rfl⟩

/-- Claim C2 (amended): for every non-empty eligible image set the
generator succeeds and its year segments are non-empty, start at frame
index 0, are contiguous and strictly ascending (each closed segment's
inclusive end index equals the next segment's start index, so adjacent
segments share exactly that boundary frame), cover every frame index
of the timeline at least once, and all segments except the final one
are closed while the final one is open-ended; when all eligible images
share one capture year, exactly one segment is produced, open-ended
from index 0. -/
theorem c2_amended (listing : List FileInfo) (h : pngFilter listing ≠ []) :
    ∃ segs : List YearSegment,
      generate_year_overlay_filter listing = Except.ok segs ∧
      segs ≠ [] ∧
      (∃ y e tl, segs = YearSegment.mk y 0 e :: tl) ∧
      List.Chain' (fun s t => s.endFrame = some t.startFrame ∧
        s.startFrame < t.startFrame ∧ s.year < t.year) segs ∧
      (∀ k, k < (pngFilter listing).length → ∃ seg ∈ segs, covers seg k = true) ∧
      (∀ seg ∈ segs.dropLast, seg.endFrame ≠ none) ∧
      (∀ seg, segs.getLast? = some seg → seg.endFrame = none) ∧
      ((∀ f ∈ pngFilter listing, ∀ g ∈ pngFilter listing, f.year = g.year) →
        ∃ y, segs = [YearSegment.mk y 0 none]) := by
  have hg := get_image_files_ok listing h
  set fs := (pngFilter listing).insertionSort (fun a b => strLE a.name b.name) with hfs
  set years0 := fs.map (fun f => f.year) with hy0
  have hgen : generate_year_overlay_filter listing = Except.ok (year_segments years0) := by
    unfold generate_year_overlay_filter
    rw [hg]
    rfl
  have hlen0 : years0.length = (pngFilter listing).length := by
    rw [hy0, List.length_map, hfs]
    exact (List.perm_insertionSort (fun a b => strLE a.name b.name) (pngFilter listing)).length_eq
  set ysorted := years0.insertionSort (fun a b => a ≤ b) with hys
  have hlen1 : ysorted.length = years0.length :=
    (List.perm_insertionSort (fun a b => a ≤ b) years0).length_eq
  have hne : ysorted ≠ [] := by
    intro hnil
    have hz : (pngFilter listing).length = 0 := by
      rw [← hlen0, ← hlen1, hnil]
      rfl
    exact h (List.eq_nil_of_length_eq_zero hz)
  obtain ⟨y, ys, hcons⟩ := List.exists_cons_of_ne_nil hne
  have hseg : year_segments years0 = segsAux y 0 1 ys :=
    year_segments_eq years0 y ys (hys ▸ hcons)
  have hsorted : List.Chain' (fun a b => a ≤ b) (y :: ys) := by
    rw [← hcons, hys]
    exact (List.sorted_insertionSort (fun a b => a ≤ b) years0).chain'
  obtain ⟨e0, tl0, hhead⟩ := segsAux_head ys y 0 1
  obtain ⟨pre, y0, s0, hsplit, hpre⟩ := segsAux_split ys y 0 1
  refine ⟨segsAux y 0 1 ys, by rw [hgen, hseg], ?_, ⟨y, e0, tl0, hhead⟩, ?_, ?_, ?_, ?_, ?_⟩
  · rw [hhead]
    exact List.cons_ne_nil _ _
  · exact segsAux_chain ys y 0 1 Nat.one_pos hsorted
  · intro k _
    exact segsAux_covers k ys y 0 1 (Nat.zero_le k)
  · rw [hsplit, List.dropLast_concat]
    exact hpre
  · intro seg hlast
    rw [hsplit, List.getLast?_concat] at hlast
    cases hlast
    rfl
  · intro hall
    have hyear : ∀ z ∈ ys, z = y := by
      intro z hz
      have hzmem : z ∈ years0 := by
        have hzs : z ∈ ysorted := by
          rw [hcons]
          exact List.mem_cons_of_mem y hz
        rw [hys] at hzs
        exact (List.mem_insertionSort (fun a b => a ≤ b)).mp hzs
      have hymem : y ∈ years0 := by
        have hym : y ∈ ysorted := by
          rw [hcons]
          exact List.mem_cons_self y ys
        rw [hys] at hym
        exact (List.mem_insertionSort (fun a b => a ≤ b)).mp hym
      obtain ⟨f, hf, hfz⟩ := List.mem_map.mp (hy0 ▸ hzmem)
      obtain ⟨g, hgmem, hgy⟩ := List.mem_map.mp (hy0 ▸ hymem)
      have hf2 : f ∈ pngFilter listing := by
        have hfi := hfs ▸ hf
        exact (List.mem_insertionSort (fun a b => strLE a.name b.name)).mp hfi
      have hg2 : g ∈ pngFilter listing := by
        have hgi := hfs ▸ hgmem
        exact (List.mem_insertionSort (fun a b => strLE a.name b.name)).mp hgi
      rw [← hfz, ← hgy]
      exact hall f hf2 g hg2
    exact ⟨y, segsAux_const ys y 0 1 hyear⟩

/-- Claim C2, witness: the amended theorem applied to the two-image
listing of the counterexample input, whose eligible set is non-empty. -/
theorem c2_witness :
    pngFilter [⟨"a.png", 0, 2020⟩, ⟨"b.png", 1, 2021⟩] ≠ [] ∧
    ∃ segs : List YearSegment,
      generate_year_overlay_filter [⟨"a.png", 0, 2020⟩, ⟨"b.png", 1, 2021⟩] =
        Except.ok segs ∧
      segs ≠ [] ∧
      (∃ y e tl, segs = YearSegment.mk y 0 e :: tl) ∧
      List.Chain' (fun s t => s.endFrame = some t.startFrame ∧
        s.startFrame < t.startFrame ∧ s.year < t.year) segs ∧
      (∀ k, k < (pngFilter [⟨"a.png", 0, 2020⟩, ⟨"b.png", 1, 2021⟩]).length →
        ∃ seg ∈ segs, covers seg k = true) ∧
      (∀ seg ∈ segs.dropLast, seg.endFrame ≠ none) ∧
      (∀ seg, segs.getLast? = some seg → seg.endFrame = none) ∧
      ((∀ f ∈ pngFilter [⟨"a.png", 0, 2020⟩, ⟨"b.png", 1, 2021⟩],
          ∀ g ∈ pngFilter [⟨"a.png", 0, 2020⟩, ⟨"b.png", 1, 2021⟩], f.year = g.year) →
        ∃ y, segs = [YearSegment.mk y 0 none]) :=
  ⟨by decide, c2_amended [⟨"a.png", 0, 2020⟩, ⟨"b.png", 1, 2021⟩] (by decide)⟩
